import Mathlib

/-!
# kramer-microservice: index translation, frame codec, command channel, handlers

A shallow embedding of `videoswitcher/common.go` and `handlers/videoswitcher.go`.

* Go `int` is an `Int` together with the platform word size `intSize`
  (`strconv.IntSize`, 32 or 64); arithmetic on it is wrapped by `wrapInt`.
* Go `error` values are their message (`err.Error()`); `nil` is the absence of one.
* Bytes on the wire are natural numbers below 256.
-/

namespace Kramer

deriving instance DecidableEq for Except

/-! ## strconv -/

/-- Two's-complement wrap-around of an integer into the range of a Go `int`
of `intSize` bits. -/
def wrapInt (intSize : Nat) (x : Int) : Int :=
  (x + 2 ^ (intSize - 1)) % 2 ^ intSize - 2 ^ (intSize - 1)

/-- The value of an ASCII decimal digit, `none` for every other character
(`c - '0'` with the `> 9` test of `strconv`). -/
def digitVal (c : Char) : Option Nat :=
  if 48 ≤ c.toNat ∧ c.toNat ≤ 57 then some (c.toNat - 48) else none

/-- The two kinds of `strconv.NumError`. -/
inductive NumErr where
  | ErrSyntax
  | ErrRange
  deriving DecidableEq, Repr

/-- The digit loop of `strconv.ParseUint(s, 10, bitSize)`, started with the
accumulator `n`: a character that is no decimal digit is a syntax error, an
accumulated value above `2^bitSize - 1` is a range error. -/
def ParseUint (bitSize : Nat) : List Char → Nat → Except NumErr Nat
  | [], n => .ok n
  | c :: cs, n =>
    match digitVal c with
    | none => .error .ErrSyntax
    | some d =>
      if 2 ^ bitSize - 1 < n * 10 + d then .error .ErrRange
      else ParseUint bitSize cs (n * 10 + d)

/-- The function `strconv.Atoi` for a Go `int` of `intSize` bits: an optional
sign, then at least one decimal digit, the value within
`[-2^(intSize-1), 2^(intSize-1) - 1]`. -/
def Atoi (intSize : Nat) (s : String) : Except NumErr Int :=
  match s.toList with
  | [] => .error .ErrSyntax
  | c :: cs =>
    let neg : Bool := c = '-'
    let ds : List Char := if c = '+' ∨ c = '-' then cs else c :: cs
    if ds = [] then .error .ErrSyntax
    else
      match ParseUint intSize ds 0 with
      | .error .ErrSyntax => .error .ErrSyntax
      | .error .ErrRange => .error .ErrRange
      | .ok un =>
        let cutoff : Nat := 2 ^ (intSize - 1)
        if !neg && cutoff ≤ un then .error .ErrRange
        else if neg && cutoff < un then .error .ErrRange
        else .ok (if neg then -(un : Int) else (un : Int))

/-- The digit loop of `strconv.formatBits` in base 10: the decimal digits of
`u`, most significant first, put in front of `a`. The loop runs once per
digit; `fuel` bounds the number of rounds. -/
def formatBits : Nat → Nat → List Char → List Char
  | 0, _, a => a
  | fuel + 1, u, a =>
    if u < 10 then Char.ofNat (48 + u) :: a
    else formatBits fuel (u / 10) (Char.ofNat (48 + u % 10) :: a)

/-- The function `strconv.Itoa`: the decimal rendering of a Go `int`, with a
leading minus sign for a negative value. -/
def Itoa (i : Int) : String :=
  if i < 0 then String.mk ('-' :: formatBits (i.natAbs + 1) i.natAbs [])
  else String.mk (formatBits (i.natAbs + 1) i.natAbs [])

/-- The message of a `strconv.NumError` raised by `Atoi` on the input `num`
(the quoting of special characters in `num` is not modelled). -/
def NumErr.Error (e : NumErr) (num : String) : String :=
  match e with
  | .ErrSyntax => "strconv.Atoi: parsing \"" ++ num ++ "\": invalid syntax"
  | .ErrRange => "strconv.Atoi: parsing \"" ++ num ++ "\": value out of range"

/-! ## videoswitcher/common.go: index translation -/

/-- The function `ToIndexOne`: converts a number (in a string) to index-based 1. -/
def ToIndexOne (intSize : Nat) (numString : String) : Except String String :=
  match Atoi intSize numString with
  | .error e => .error (e.Error numString)
  | .ok num => .ok (Itoa (wrapInt intSize (num + 1)))

/-- The function `LessThanZero`: whether a number (in a string) is less than
zero; `false` when the string is no number. -/
def LessThanZero (intSize : Nat) (numString : String) : Bool :=
  match Atoi intSize numString with
  | .error _ => false
  | .ok num => decide (num < 0)

/-- The function `ToIndexZero`: converts a number (in a string) to index-base 0. -/
def ToIndexZero (intSize : Nat) (numString : String) : Except String String :=
  match Atoi intSize numString with
  | .error e => .error (e.Error numString)
  | .ok num => .ok (Itoa (wrapInt intSize (num - 1)))

/-! ## videoswitcher/common.go: frame codec -/

/-- The constant `CARRIAGE_RETURN`. -/
def CARRIAGE_RETURN : Nat := 0x0D

/-- The constant `LINE_FEED`. -/
def LINE_FEED : Nat := 0x0A

/-- The constant `SPACE`. -/
def SPACE : Nat := 0x20

/-- The outcome of one `conn.Read(buffer)`: the bytes that arrived, or the
error of the read. -/
inductive ReadResult where
  | data (chunk : List Nat)
  | fail (err : String)
  deriving DecidableEq, Repr

/-- A `*net.TCPConn` during one call of `SendCommand`. What the peer does is
an input: `writeErr` is the error `conn.Write` returns (`none` for `nil`) and
`reads` the outcomes of the successive `conn.Read` calls; a `Read` after the
last of them runs into the read deadline and fails with the error text
`deadlineErr`. `sent` collects what was handed to `conn.Write`. -/
structure TCPConn where
  id : Nat
  writeErr : Option String
  reads : List ReadResult
  sent : List String
  deadlineErr : String
  deriving DecidableEq, Repr

/-- The function `removeNil`: the loop appends every byte other than `0x00`
to `ret`. -/
def removeNil (b : List Nat) : List Nat :=
  b.foldl (fun ret c => if c = 0 then ret else ret ++ [c]) []

/-- The function `charInBuffer`. -/
def charInBuffer (toCheck : Nat) : List Nat → Bool
  | [] => false
  | b :: buffer => if toCheck = b then true else charInBuffer toCheck buffer

/-- The effect of a successful `conn.Read(buffer)` on `buffer`: the chunk
overwrites the front of the buffer, the bytes behind it stay as they were. -/
def readInto (buffer chunk : List Nat) : List Nat :=
  chunk.take buffer.length ++ buffer.drop chunk.length

/-- The loop of `readUntil`, over the reads the connection still has to
deliver; `deadlineErr` is the error text of a `conn.Read` that runs into the
read deadline. Returns `message`, `err` and the reads that are left. -/
def readUntilLoop (delimeter : Nat) (deadlineErr : String) :
    List ReadResult → List Nat → List Nat → (List Nat × Option String) × List ReadResult
  | [], buffer, message =>
    if charInBuffer delimeter buffer then ((removeNil message, none), [])
    else ((message, some ("Error reading response: " ++ deadlineErr)), [])
  | r :: rest, buffer, message =>
    if charInBuffer delimeter buffer then ((removeNil message, none), r :: rest)
    else
      match r with
      | .fail err => ((message, some ("Error reading response: " ++ err)), rest)
      | .data chunk =>
        readUntilLoop delimeter deadlineErr rest (readInto buffer chunk)
          (message ++ readInto buffer chunk)

/-- The function `readUntil` (the deadline is the end of `conn.reads`). -/
def readUntil (delimeter : Nat) (conn : TCPConn) : (List Nat × Option String) × TCPConn :=
  let buffer : List Nat := List.replicate 128 0
  let message : List Nat := []
  let r := readUntilLoop delimeter conn.deadlineErr conn.reads buffer message
  (r.1, { conn with reads := r.2 })

/-- The function `writeCommand`; the result of `conn.Write` is dropped, as in
the source. Returns the response, `err` and the connection afterwards. -/
def writeCommand (conn : TCPConn) (command : String) : (List Nat × Option String) × TCPConn :=
  let command := String.mk (command.toList.map fun c => if c = ' ' then Char.ofNat SPACE else c)
  let command := command ++ String.singleton (Char.ofNat CARRIAGE_RETURN)
    ++ String.singleton (Char.ofNat LINE_FEED)
  let conn := { conn with sent := conn.sent ++ [command] }
  match readUntil LINE_FEED conn with
  | ((_, some err), conn) => (([], some err), conn)
  | ((resp, none), conn) => ((resp, none), conn)

/-! ## videoswitcher/common.go: command channel -/

/-- What the program does to the outside world, in order. -/
inductive Event where
  | dial (address : String) (conn : Option Nat)
  | reset (timer : Nat)
  | write (conn : Nat) (data : String)
  | close (conn : Nat)
  deriving DecidableEq, Repr

/-- How the network behaves during one call of `SendCommand`: the errors of
`net.ResolveTCPAddr`, `net.DialTCP` and `conn.Write` (`none` for `nil`), the
outcomes of the reads on the connection the call uses, and the error text of
a read that runs into the read deadline. -/
structure Net where
  resolveErr : Option String
  dialErr : Option String
  writeErr : Option String
  reads : List ReadResult
  deadlineErr : String
  deriving DecidableEq, Repr

/-- The process state around `SendCommand`: the package variables `connMap`
and `timerMap` (connections and timers by their number), the count of
`net.DialTCP` calls, the count of timers made, the goroutines of
`newTimedConnection` that wait for a timer, and the trace of events. -/
structure World where
  connMap : String → Option Nat
  timerMap : String → Option Nat
  dials : Nat
  timers : Nat
  watchers : List (Nat × String × Nat)
  trace : List Event

/-- The method `syncmap.Map.Store`. -/
def Store (m : String → Option Nat) (key : String) (value : Nat) : String → Option Nat :=
  fun k => if k = key then some value else m k

/-- The method `syncmap.Map.Delete`. -/
def Delete (m : String → Option Nat) (key : String) : String → Option Nat :=
  fun k => if k = key then none else m k

/-- The function `getConnection`: the connection opened by the `k`-th
`net.DialTCP` call of the process has the number `k`. -/
def getConnection (w : World) (net : Net) (address : String) : Except String TCPConn × World :=
  match net.resolveErr with
  | some err => (.error err, w)
  | none =>
    match net.dialErr with
    | some err =>
      (.error err, { w with dials := w.dials + 1, trace := w.trace ++ [Event.dial address none] })
    | none =>
      (.ok { id := w.dials, writeErr := net.writeErr, reads := net.reads, sent := [],
              deadlineErr := net.deadlineErr },
        { w with dials := w.dials + 1, trace := w.trace ++ [Event.dial address (some w.dials)] })

/-- The function `newTimedConnection`: on a successful dial a goroutine is
started that waits for `timer`. -/
def newTimedConnection (w : World) (net : Net) (address : String) (timer : Nat) :
    Except String TCPConn × World :=
  match getConnection w net address with
  | (.error err, w) => (.error err, w)
  | (.ok conn, w) => (.ok conn, { w with watchers := w.watchers ++ [(timer, address, conn.id)] })

/-- The body of the goroutine of `newTimedConnection`, run when `timer` has
fired: `connMap.Delete(address)` and `conn.Close()`. -/
def timerFires (w : World) (timer : Nat) : World :=
  (w.watchers.filter (fun x => x.1 = timer)).foldl
    (fun (w : World) x =>
      { w with connMap := Delete w.connMap x.2.1, trace := w.trace ++ [Event.close x.2.2] })
    { w with watchers := w.watchers.filter (fun x => x.1 ≠ timer) }

/-- The events of the writes made on a connection. -/
def writeEvents (conn : TCPConn) : List Event :=
  conn.sent.map (Event.write conn.id)

/-- The block `// reset timer & write command` of `SendCommand`, with the
return of the pooled branch. -/
def resetAndWrite (w : World) (timer : Nat) (conn : TCPConn) (command : String) :
    (List Nat × Option String) × World :=
  let w : World := { w with trace := w.trace ++ [Event.reset timer] }
  match writeCommand conn command with
  | ((_, some err), conn) => (([], some err), { w with trace := w.trace ++ writeEvents conn })
  | ((resp, none), conn) => ((resp, none), { w with trace := w.trace ++ writeEvents conn })

/-- The function `SendCommand`: takes a command and sends it to the address,
and returns the device's response to that command. -/
def SendCommand (w : World) (net : Net) (address command : String) (readWelcome : Bool) :
    (List Nat × Option String) × World :=
  if !readWelcome then
    match w.connMap address with
    | none =>
      let timer := w.timers
      let w : World :=
        { w with timers := w.timers + 1, timerMap := Store w.timerMap address timer }
      match newTimedConnection w net address timer with
      | (.error err, w) => (([], some err), w)
      | (.ok c, w) =>
        let w : World := { w with connMap := Store w.connMap address c.id }
        resetAndWrite w timer c command
    | some c =>
      match w.timerMap address with
      | none => (([], some "Failed to load timer for %!s(*time.Timer=<nil>)"), w)
      | some timer =>
        resetAndWrite w timer
          { id := c, writeErr := net.writeErr, reads := net.reads, sent := [],
              deadlineErr := net.deadlineErr } command
  else
    match getConnection w net address with
    | (.error err, w) => (([], some err), w)
    | (.ok conn, w) =>
      -- `defer conn.Close()`: every return below closes the connection
      let closing (conn : TCPConn) : World :=
        { w with trace := w.trace ++ writeEvents conn ++ [Event.close conn.id] }
      let welcome : (List Nat × Option String) × TCPConn :=
        if readWelcome then readUntil CARRIAGE_RETURN conn else (([], none), conn)
      match welcome with
      | ((_, some err), conn) => (([], some err), closing conn)
      | ((_, none), conn) =>
        match writeCommand conn command with
        | ((_, some err), conn) => (([], some err), closing conn)
        | ((resp, none), conn) => ((resp, none), closing conn)

/-- A sequence of `SendCommand` calls to one address in one mode, each with
its command and the behaviour of the network during it; returns the results
in order and the final state. -/
def sendAll (address : String) (readWelcome : Bool) :
    World → List (Net × String) → List (List Nat × Option String) × World
  | w, [] => ([], w)
  | w, (net, command) :: calls =>
    let r := SendCommand w net address command readWelcome
    let rs := sendAll address readWelcome r.2 calls
    (r.1 :: rs.1, rs.2)

/-- The connections of the `write` events of a trace, in order. -/
def exchanges : List Event → List Nat
  | [] => []
  | .write conn _ :: es => conn :: exchanges es
  | _ :: es => exchanges es

/-- The connections opened by the `dial` events of a trace, in order. -/
def opened : List Event → List Nat
  | [] => []
  | .dial _ (some conn) :: es => conn :: opened es
  | _ :: es => opened es

/-- The connections of the `close` events of a trace, in order. -/
def closed : List Event → List Nat
  | [] => []
  | .close conn :: es => conn :: closed es
  | _ :: es => closed es

/-! ## handlers/videoswitcher.go -/

/-- The function `strconv.ParseBool`. -/
def ParseBool (str : String) : Except String Bool :=
  if str ∈ ["1", "t", "T", "TRUE", "true", "True"] then .ok true
  else if str ∈ ["0", "f", "F", "FALSE", "false", "False"] then .ok false
  else .error ("strconv.ParseBool: parsing \"" ++ str ++ "\": invalid syntax")

/-- The constant `http.StatusOK`. -/
def StatusOK : Nat := 200

/-- The constant `http.StatusBadRequest`. -/
def StatusBadRequest : Nat := 400

/-- The constant `http.StatusInternalServerError`. -/
def StatusInternalServerError : Nat := 500

/-- The type `status.Input`, the result of the routing operations. -/
structure InputStatus where
  Input : String
  deriving DecidableEq, Repr

/-- The result type of the active-signal query. -/
structure ActiveSignal where
  Active : Bool
  deriving DecidableEq, Repr

/-- The Go value a handler hands to `context.JSON`: a string, an `error`
(`none` for `nil`), or a result record. -/
inductive Body where
  | str (s : String)
  | err (e : Option String)
  | input (v : InputStatus)
  | signal (v : ActiveSignal)
  deriving DecidableEq, Repr

/-- The answer of a handler: the arguments of its `context.JSON` call. -/
structure Reply where
  code : Nat
  body : Body
  deriving DecidableEq, Repr

/-- The device operations of package `videoswitcher` the handlers call; they
are parameters of the handlers. An `error` result is `none` for `nil`. -/
structure Device where
  SwitchInput : String → String → String → Bool → InputStatus × Option String
  GetCurrentInputByOutputPort : String → String → Bool → InputStatus × Option String
  SetFrontLock : String → Bool → Bool → Option String
  GetActiveSignalByPort : String → String → Bool → ActiveSignal × Option String

/-- A call of a device operation, with its arguments. -/
inductive VsCall where
  | SwitchInput (address input output : String) (readWelcome : Bool)
  | GetCurrentInputByOutputPort (address port : String) (readWelcome : Bool)
  | SetFrontLock (address : String) (state readWelcome : Bool)
  | GetActiveSignalByPort (address port : String) (readWelcome : Bool)
  deriving DecidableEq, Repr

namespace handlers

/-- The handler `SwitchInput`; `context` is `context.Param`. Returns the
answer and the device operations called. -/
def SwitchInput (intSize : Nat) (vs : Device) (context : String → String) :
    Reply × List VsCall :=
  let input := context "input"
  let output := context "output"
  let address := context "address"
  match ParseBool (context "bool") with
  | .error _ => (⟨StatusBadRequest, .str "Error! welcome must be a true/false value"⟩, [])
  | .ok readWelcome =>
    match ToIndexOne intSize input with
    | .error _ =>
      (⟨StatusBadRequest, .str ("Error! Input parameter " ++ input ++ " is not valid!")⟩, [])
    | .ok i =>
      if LessThanZero intSize input then
        (⟨StatusBadRequest, .str ("Error! Input parameter " ++ input ++ " is not valid!")⟩, [])
      else
        match ToIndexOne intSize output with
        | .error _ =>
          (⟨StatusBadRequest, .str "Error! Output parameter must be zero or greater"⟩, [])
        | .ok o =>
          if LessThanZero intSize output then
            (⟨StatusBadRequest, .str "Error! Output parameter must be zero or greater"⟩, [])
          else
            let calls := [VsCall.SwitchInput address i o readWelcome]
            match vs.SwitchInput address i o readWelcome with
            | (_, some err) => (⟨StatusInternalServerError, .str err⟩, calls)
            | (ret, none) =>
              match ToIndexZero intSize ret.Input with
              | .error err => (⟨StatusInternalServerError, .str err⟩, calls)
              | .ok z => (⟨StatusOK, .input { ret with Input := z ++ ":" ++ output }⟩, calls)

/-- The handler `GetInputByPort`. -/
def GetInputByPort (intSize : Nat) (vs : Device) (context : String → String) :
    Reply × List VsCall :=
  let address := context "address"
  let port := context "port"
  match ParseBool (context "bool") with
  | .error _ => (⟨StatusBadRequest, .str "Error! welcome must be a true/false value"⟩, [])
  | .ok readWelcome =>
    match ToIndexOne intSize port with
    | .error _ =>
      (⟨StatusBadRequest, .str "Error! Port parameter must be zero or greater"⟩, [])
    | .ok p =>
      if LessThanZero intSize port then
        (⟨StatusBadRequest, .str "Error! Port parameter must be zero or greater"⟩, [])
      else
        let calls := [VsCall.GetCurrentInputByOutputPort address p readWelcome]
        match vs.GetCurrentInputByOutputPort address p readWelcome with
        | (_, some err) => (⟨StatusInternalServerError, .str err⟩, calls)
        | (input, none) =>
          match ToIndexZero intSize input.Input with
          | .error err => (⟨StatusInternalServerError, .str err⟩, calls)
          | .ok z => (⟨StatusOK, .input { input with Input := z ++ ":" ++ port }⟩, calls)

/-- The handler `SetFrontLock`. -/
def SetFrontLock (vs : Device) (context : String → String) : Reply × List VsCall :=
  let address := context "address"
  match ParseBool (context "bool2") with
  | .error _ =>
    (⟨StatusBadRequest, .str "Error! front-button-lock must be set to true/false"⟩, [])
  | .ok state =>
    match ParseBool (context "bool") with
    | .error _ => (⟨StatusBadRequest, .str "Error! welcome must be a true/false value"⟩, [])
    | .ok readWelcome =>
      let calls := [VsCall.SetFrontLock address state readWelcome]
      match vs.SetFrontLock address state readWelcome with
      | some err => (⟨StatusInternalServerError, .str err⟩, calls)
      | none => (⟨StatusOK, .str "Success"⟩, calls)

/-- The handler `GetActiveSignal`: checks for active signal on a videoswitcher
port. On a failure `ne` of the device operation the value handed to
`context.JSON` is the variable `err`, which is `nil` at that point. -/
def GetActiveSignal (intSize : Nat) (vs : Device) (context : String → String) :
    Reply × List VsCall :=
  let address := context "address"
  let port := context "port"
  let rW := true
  match ToIndexOne intSize port with
  | .error _ =>
    (⟨StatusBadRequest, .str ("Error! Input parameter " ++ port ++ " is not valid!")⟩, [])
  | .ok i =>
    let err : Option String := none
    if LessThanZero intSize port then
      (⟨StatusBadRequest, .str ("Error! Input parameter " ++ port ++ " is not valid!")⟩, [])
    else
      let calls := [VsCall.GetActiveSignalByPort address i rW]
      match vs.GetActiveSignalByPort address i rW with
      | (_, some _) => (⟨StatusInternalServerError, .err err⟩, calls)
      | (signal, none) => (⟨StatusOK, .signal signal⟩, calls)

end handlers

/-- A string parses, with `strconv.Atoi`, to an integer that is not negative. -/
def parsesNonNegative (intSize : Nat) (s : String) : Prop :=
  ∃ n : Int, Atoi intSize s = .ok n ∧ 0 ≤ n

/-- A string does not parse as an integer, or parses to a negative one. -/
def badIndex (intSize : Nat) (s : String) : Prop :=
  (∀ n : Int, Atoi intSize s ≠ .ok n) ∨ ∃ n : Int, Atoi intSize s = .ok n ∧ n < 0

/-- The first string occurs inside the second. -/
def refersTo (word text : String) : Prop :=
  word.toList <:+: text.toList

instance (word text : String) : Decidable (refersTo word text) :=
  inferInstanceAs (Decidable (word.toList <:+: text.toList))

/-- A device whose every operation fails with the error `e`. -/
def failingDevice (e : String) : Device where
  SwitchInput := fun _ _ _ _ => (⟨""⟩, some e)
  GetCurrentInputByOutputPort := fun _ _ _ => (⟨""⟩, some e)
  SetFrontLock := fun _ _ _ => some e
  GetActiveSignalByPort := fun _ _ _ => (⟨false⟩, some e)

/-- The request parameters `input`, `output`, `port`, `bool2` (the lock flag)
and `bool` (the welcome flag) of a request to the address `10.0.0.1`. -/
def request (input output port bool2 bool : String) : String → String :=
  fun name =>
    if name = "input" then input
    else if name = "output" then output
    else if name = "port" then port
    else if name = "bool2" then bool2
    else if name = "bool" then bool
    else if name = "address" then "10.0.0.1"
    else ""

/-- A device whose routing operations report the input `input`, without an
error, and that reports an active signal. -/
def workingDevice (input : String) : Device where
  SwitchInput := fun _ _ _ _ => (⟨input⟩, none)
  GetCurrentInputByOutputPort := fun _ _ _ => (⟨input⟩, none)
  SetFrontLock := fun _ _ _ => none
  GetActiveSignalByPort := fun _ _ _ => (⟨true⟩, none)

/-- The state of a process that has not called `SendCommand` yet. -/
def World.start : World where
  connMap := fun _ => none
  timerMap := fun _ => none
  dials := 0
  timers := 0
  watchers := []
  trace := []

/-- The error text of a read from `10.0.0.1:5000` that runs into the read
deadline. -/
def ioTimeout : String := "read tcp 10.0.0.2:49152->10.0.0.1:5000: i/o timeout"

/-- A network on which resolving and dialling work, the write fails with
`broken pipe`, and the reads deliver `reads`. -/
def brokenWrite (reads : List ReadResult) : Net where
  resolveErr := none
  dialErr := none
  writeErr := some "broken pipe"
  reads := reads
  deadlineErr := ioTimeout

/-- A network on which resolving, dialling and writing work, and the reads
deliver `reads`. -/
def healthy (reads : List ReadResult) : Net where
  resolveErr := none
  dialErr := none
  writeErr := none
  reads := reads
  deadlineErr := ioTimeout

/-- Three transient calls on a healthy network: each connection delivers a
welcome banner ending in a carriage return, then the response `OK\n`. -/
def threeTransient : List (Net × String) :=
  [(healthy [.data [72, 105, 13], .data [79, 75, 10]], "Route 3 4"),
   (healthy [.data [72, 105, 13], .data [79, 75, 10]], "Lock 1"),
   (healthy [.data [72, 105, 13], .data [79, 75, 10]], "Route 1 2")]

/-- Three pooled calls on a healthy network: each exchange is answered `OK\n`. -/
def threePooled : List (Net × String) :=
  [(healthy [.data [79, 75, 10]], "Route 3 4"),
   (healthy [.data [79, 75, 10]], "Lock 1"),
   (healthy [.data [79, 75, 10]], "Route 1 2")]

/-! ## Lemmas: strconv -/

theorem digitVal_digit (d : Nat) (h : d < 10) : digitVal (Char.ofNat (48 + d)) = some d := by
  have key : ∀ k : Fin 10, digitVal (Char.ofNat (48 + k.val)) = some k.val := by decide
  exact key ⟨d, h⟩

theorem two_pow_split (b : Nat) (hb : 0 < b) : 2 ^ b = 2 * 2 ^ (b - 1) := by
  obtain ⟨k, rfl⟩ : ∃ k, b = k + 1 := ⟨b - 1, by omega⟩
  simp [pow_succ, Nat.mul_comm]

theorem formatBits_append (fuel u : Nat) (a : List Char) :
    formatBits fuel u a = formatBits fuel u [] ++ a := by
  induction fuel generalizing u a with
  | zero => simp [formatBits]
  | succ fuel ih =>
    unfold formatBits
    split
    · simp
    · rw [ih, ih (u / 10) [Char.ofNat (48 + u % 10)]]
      simp

/-- The digit loop does not run out of fuel: any fuel above `u` gives the same
digits. -/
theorem formatBits_fuel (f g u : Nat) (a : List Char) (hf : u < f) (hg : u < g) :
    formatBits f u a = formatBits g u a := by
  induction f generalizing g u a with
  | zero => omega
  | succ f ih =>
    cases g with
    | zero => omega
    | succ g =>
      unfold formatBits
      split
      · rfl
      · exact ih g (u / 10) _ (by omega) (by omega)

theorem formatBits_ne_nil (fuel u : Nat) : formatBits (fuel + 1) u [] ≠ [] := by
  unfold formatBits
  split
  · simp
  · rw [formatBits_append]
    simp

theorem ParseUint_append (b : Nat) (xs ys : List Char) (n : Nat) :
    ParseUint b (xs ++ ys) n =
      match ParseUint b xs n with
      | .ok m => ParseUint b ys m
      | .error e => .error e := by
  induction xs generalizing n with
  | nil => simp [ParseUint]
  | cons c cs ih =>
    simp only [List.cons_append, ParseUint]
    cases digitVal c with
    | none => rfl
    | some d =>
      simp only
      split
      · rfl
      · exact ih _

theorem ParseUint_formatBits (b fuel u : Nat) (hfuel : u < fuel) (hu : u ≤ 2 ^ b - 1) :
    ParseUint b (formatBits fuel u []) 0 = .ok u := by
  induction fuel generalizing u with
  | zero => omega
  | succ fuel ih =>
    unfold formatBits
    split
    · rename_i h10
      simp [ParseUint, digitVal_digit u h10]
      omega
    · rename_i h10
      rw [formatBits_append, ParseUint_append, ih (u / 10) (by omega) (by omega)]
      have hd : u % 10 < 10 := Nat.mod_lt _ (by decide)
      have hval : u / 10 * 10 + u % 10 = u := by omega
      simp [ParseUint, digitVal_digit _ hd, hval]
      omega

theorem Atoi_minus (b : Nat) (ds : List Char) (un : Nat) (hds : ds ≠ [])
    (hparse : ParseUint b ds 0 = .ok un) (hun : un ≤ 2 ^ (b - 1)) :
    Atoi b (String.mk ('-' :: ds)) = .ok (-(un : Int)) := by
  have hlt : ¬ 2 ^ (b - 1) < un := by omega
  simp [Atoi, hds, hparse, hlt]

theorem Atoi_unsigned (b : Nat) (c : Char) (cs : List Char) (un : Nat)
    (hparse : ParseUint b (c :: cs) 0 = .ok un) (hun : un < 2 ^ (b - 1)) :
    Atoi b (String.mk (c :: cs)) = .ok (un : Int) := by
  have hplus : c ≠ '+' := by
    rintro rfl
    simp [ParseUint, digitVal] at hparse
  have hminus : c ≠ '-' := by
    rintro rfl
    simp [ParseUint, digitVal] at hparse
  have hle : ¬ 2 ^ (b - 1) ≤ un := by omega
  simp [Atoi, hplus, hminus, hparse, hle]

theorem Atoi_Itoa (b : Nat) (hb : 0 < b) (i : Int)
    (hlo : -(2 : Int) ^ (b - 1) ≤ i) (hhi : i < (2 : Int) ^ (b - 1)) :
    Atoi b (Itoa i) = .ok i := by
  have hcast : ((2 ^ (b - 1) : Nat) : Int) = (2 : Int) ^ (b - 1) := by push_cast; rfl
  have hsplit := two_pow_split b hb
  have hpos : 0 < 2 ^ (b - 1) := Nat.pow_pos (by decide)
  unfold Itoa
  split
  · rename_i hneg
    have hu : i.natAbs ≤ 2 ^ (b - 1) := by omega
    have hval : -((i.natAbs : Nat) : Int) = i := by omega
    rw [Atoi_minus b _ i.natAbs (formatBits_ne_nil _ _)
      (ParseUint_formatBits b _ _ (by omega) (by omega)) hu, hval]
  · rename_i hneg
    have hu : i.natAbs < 2 ^ (b - 1) := by omega
    have hval : ((i.natAbs : Nat) : Int) = i := by omega
    have hparse := ParseUint_formatBits b (i.natAbs + 1) i.natAbs (by omega) (by omega)
    cases hfmt : formatBits (i.natAbs + 1) i.natAbs [] with
    | nil => exact absurd hfmt (formatBits_ne_nil _ _)
    | cons c cs =>
      rw [hfmt] at hparse
      rw [Atoi_unsigned b c cs i.natAbs hparse hu, hval]

/-- What `Atoi` returns fits a Go `int`. -/
theorem Atoi_range (b : Nat) (s : String) (n : Int) (h : Atoi b s = .ok n) :
    -(2 : Int) ^ (b - 1) ≤ n ∧ n < (2 : Int) ^ (b - 1) := by
  have hcast : ((2 ^ (b - 1) : Nat) : Int) = (2 : Int) ^ (b - 1) := by push_cast; rfl
  have hpos : (0 : Int) < (2 : Int) ^ (b - 1) := by positivity
  unfold Atoi at h
  split at h
  · simp at h
  · rename_i c cs _
    simp only at h
    generalize (if c = '+' ∨ c = '-' then cs else c :: cs) = ds at h
    by_cases hnil : ds = []
    · simp [hnil] at h
    · simp only [hnil, if_false] at h
      cases hp : ParseUint b ds 0 with
      | error e => cases e <;> simp [hp] at h
      | ok un =>
        simp only [hp] at h
        by_cases hneg : c = '-'
        · by_cases hc : 2 ^ (b - 1) < un
          · simp [hneg, hc] at h
          · simp [hneg, hc] at h
            omega
        · by_cases hc : 2 ^ (b - 1) ≤ un
          · simp [hneg, hc] at h
          · simp [hneg, hc] at h
            omega

theorem wrapInt_of_range (b : Nat) (hb : 0 < b) (x : Int)
    (hlo : -(2 : Int) ^ (b - 1) ≤ x) (hhi : x < (2 : Int) ^ (b - 1)) :
    wrapInt b x = x := by
  have hsplit : (2 : Int) ^ b = 2 * (2 : Int) ^ (b - 1) := by
    have := two_pow_split b hb
    exact_mod_cast this
  unfold wrapInt
  rw [hsplit, Int.emod_eq_of_lt (by omega) (by omega)]
  omega

theorem wrapInt_max_succ (b : Nat) (hb : 0 < b) :
    wrapInt b ((2 : Int) ^ (b - 1) - 1 + 1) = -(2 : Int) ^ (b - 1) := by
  have hsplit : (2 : Int) ^ b = 2 * (2 : Int) ^ (b - 1) := by
    have := two_pow_split b hb
    exact_mod_cast this
  unfold wrapInt
  rw [hsplit]
  have : (2 : Int) ^ (b - 1) - 1 + 1 + (2 : Int) ^ (b - 1) = 2 * (2 : Int) ^ (b - 1) := by ring
  rw [this, Int.emod_self]
  omega

theorem wrapInt_min_pred (b : Nat) (hb : 0 < b) :
    wrapInt b (-(2 : Int) ^ (b - 1) - 1) = (2 : Int) ^ (b - 1) - 1 := by
  have hsplit : (2 : Int) ^ b = 2 * (2 : Int) ^ (b - 1) := by
    have := two_pow_split b hb
    exact_mod_cast this
  have hpos : (0 : Int) < (2 : Int) ^ (b - 1) := by positivity
  unfold wrapInt
  rw [hsplit]
  have h1 : -(2 : Int) ^ (b - 1) - 1 + (2 : Int) ^ (b - 1)
      = (2 * (2 : Int) ^ (b - 1) - 1) + (-1) * (2 * (2 : Int) ^ (b - 1)) := by ring
  rw [h1, Int.add_mul_emod_self, Int.emod_eq_of_lt (by omega) (by omega)]
  omega

/-- The translation to index-base 1 followed by the translation back is the
identity on the decimal string of every value of a Go `int`. -/
theorem round_trip_int (b : Nat) (hb : 0 < b) (n : Int)
    (hlo : -(2 : Int) ^ (b - 1) ≤ n) (hhi : n < (2 : Int) ^ (b - 1)) :
    ToIndexOne b (Itoa n) = .ok (Itoa (wrapInt b (n + 1))) ∧
      ToIndexZero b (Itoa (wrapInt b (n + 1))) = .ok (Itoa n) := by
  have hpos : (0 : Int) < (2 : Int) ^ (b - 1) := by positivity
  have hone : ToIndexOne b (Itoa n) = .ok (Itoa (wrapInt b (n + 1))) := by
    simp [ToIndexOne, Atoi_Itoa b hb n hlo hhi]
  refine ⟨hone, ?_⟩
  by_cases hmax : n + 1 < (2 : Int) ^ (b - 1)
  · have hw : wrapInt b (n + 1) = n + 1 := wrapInt_of_range b hb _ (by omega) hmax
    have hback : wrapInt b n = n := wrapInt_of_range b hb _ hlo hhi
    simp [ToIndexZero, hw, Atoi_Itoa b hb (n + 1) (by omega) hmax, hback]
  · have hn : n = (2 : Int) ^ (b - 1) - 1 := by omega
    subst hn
    rw [wrapInt_max_succ b hb]
    simp [ToIndexZero, Atoi_Itoa b hb (-(2 : Int) ^ (b - 1)) (by omega) (by omega),
      wrapInt_min_pred b hb]

/-! ## Lemmas: handlers -/

theorem validate_bad (b : Nat) (s : String) (h : badIndex b s) :
    (∃ e, ToIndexOne b s = .error e) ∨
      (∃ i, ToIndexOne b s = .ok i ∧ LessThanZero b s = true) := by
  cases hp : Atoi b s with
  | error e => exact Or.inl ⟨e.Error s, by simp [ToIndexOne, hp]⟩
  | ok n =>
    rcases h with h | ⟨m, hm, hneg⟩
    · exact absurd hp (h n)
    · rw [hp] at hm
      cases hm
      exact Or.inr ⟨Itoa (wrapInt b (n + 1)), by simp [ToIndexOne, hp],
        by simp [LessThanZero, hp, hneg]⟩

theorem validate_good (b : Nat) (s : String) (h : parsesNonNegative b s) :
    ∃ i, ToIndexOne b s = .ok i ∧ LessThanZero b s = false := by
  obtain ⟨n, hn, h0⟩ := h
  exact ⟨Itoa (wrapInt b (n + 1)), by simp [ToIndexOne, hn], by simp [LessThanZero, hn, h0]⟩

/-! ## Lemmas: command channel -/

theorem readUntil_id (d : Nat) (conn : TCPConn) : (readUntil d conn).2.id = conn.id := rfl

theorem readUntil_sent (d : Nat) (conn : TCPConn) : (readUntil d conn).2.sent = conn.sent := rfl

theorem writeCommand_id (conn : TCPConn) (command : String) :
    (writeCommand conn command).2.id = conn.id := by
  unfold writeCommand
  simp only
  split
  · rename_i h
    have := congrArg (fun r => r.2.id) h
    simpa [readUntil_id] using this.symm
  · rename_i h
    have := congrArg (fun r => r.2.id) h
    simpa [readUntil_id] using this.symm

theorem writeCommand_sent (conn : TCPConn) (command : String) :
    ∃ data, (writeCommand conn command).2.sent = conn.sent ++ [data] := by
  unfold writeCommand
  simp only
  split
  · rename_i h
    have := congrArg (fun r => r.2.sent) h
    exact ⟨_, by simpa [readUntil_sent] using this.symm⟩
  · rename_i h
    have := congrArg (fun r => r.2.sent) h
    exact ⟨_, by simpa [readUntil_sent] using this.symm⟩

theorem writeEvents_writeCommand (conn : TCPConn) (command : String) (h : conn.sent = []) :
    ∃ data, writeEvents (writeCommand conn command).2 = [Event.write conn.id data] := by
  obtain ⟨data, hd⟩ := writeCommand_sent conn command
  exact ⟨data, by simp [writeEvents, hd, h, writeCommand_id]⟩

theorem resetAndWrite_world (w : World) (timer : Nat) (conn : TCPConn) (command : String)
    (h : conn.sent = []) :
    ∃ data, (resetAndWrite w timer conn command).2 =
      { w with trace := w.trace ++ [Event.reset timer, Event.write conn.id data] } := by
  obtain ⟨data, hd⟩ := writeEvents_writeCommand conn command h
  refine ⟨data, ?_⟩
  unfold resetAndWrite
  simp only
  split
  · rename_i h1
    have h2 := congrArg (fun r => writeEvents r.2) h1
    simp only [hd] at h2
    simp [← h2]
  · rename_i h1
    have h2 := congrArg (fun r => writeEvents r.2) h1
    simp only [hd] at h2
    simp [← h2]

theorem resetAndWrite_result (w : World) (timer : Nat) (conn : TCPConn) (command : String) :
    (resetAndWrite w timer conn command).1.2 = (writeCommand conn command).1.2 ∧
      ((writeCommand conn command).1.2 ≠ none → (resetAndWrite w timer conn command).1.1 = []) := by
  unfold resetAndWrite
  simp only
  split
  · rename_i h1
    simp [h1]
  · rename_i h1
    simp [h1]


theorem pooled_reuse (w : World) (net : Net) (address command : String) (c t : Nat)
    (hc : w.connMap address = some c) (ht : w.timerMap address = some t) :
    SendCommand w net address command false =
      resetAndWrite w t ⟨c, net.writeErr, net.reads, [], net.deadlineErr⟩ command := by
  simp [SendCommand, hc, ht]

theorem pooled_fresh (w : World) (net : Net) (address command : String)
    (hc : w.connMap address = none) (hr : net.resolveErr = none) (hd : net.dialErr = none) :
    SendCommand w net address command false =
      resetAndWrite
        { w with
          connMap := Store w.connMap address w.dials
          timerMap := Store w.timerMap address w.timers
          dials := w.dials + 1
          timers := w.timers + 1
          watchers := w.watchers ++ [(w.timers, address, w.dials)]
          trace := w.trace ++ [Event.dial address (some w.dials)] }
        w.timers ⟨w.dials, net.writeErr, net.reads, [], net.deadlineErr⟩ command := by
  simp [SendCommand, hc, newTimedConnection, getConnection, hr, hd]

theorem pooled_fresh_dialled (w : World) (net : Net) (address command : String)
    (hc : w.connMap address = none)
    (hok : (SendCommand w net address command false).1.2 = none) :
    net.resolveErr = none ∧ net.dialErr = none := by
  cases hr : net.resolveErr with
  | some e => simp [SendCommand, hc, newTimedConnection, getConnection, hr] at hok
  | none =>
    cases hd : net.dialErr with
    | some e => simp [SendCommand, hc, newTimedConnection, getConnection, hr, hd] at hok
    | none => exact ⟨rfl, rfl⟩

theorem pooled_reuse_timer (w : World) (net : Net) (address command : String) (c : Nat)
    (hc : w.connMap address = some c)
    (hok : (SendCommand w net address command false).1.2 = none) :
    ∃ t, w.timerMap address = some t := by
  cases ht : w.timerMap address with
  | some t => exact ⟨t, rfl⟩
  | none => simp [SendCommand, hc, ht] at hok

theorem transient_ok (w : World) (net : Net) (address command : String)
    (hok : (SendCommand w net address command true).1.2 = none) :
    ∃ data, (SendCommand w net address command true).2 =
      { w with
        dials := w.dials + 1
        trace := w.trace ++ [Event.dial address (some w.dials), Event.write w.dials data,
          Event.close w.dials] } := by
  cases hr : net.resolveErr with
  | some e => simp [SendCommand, getConnection, hr] at hok
  | none =>
    cases hd : net.dialErr with
    | some e => simp [SendCommand, getConnection, hr, hd] at hok
    | none =>
      simp only [SendCommand, getConnection, hr, hd, Bool.not_true, Bool.false_eq_true,
        if_false, if_true] at hok ⊢
      rcases hw : readUntil CARRIAGE_RETURN
          { id := w.dials, writeErr := net.writeErr, reads := net.reads, sent := [],
              deadlineErr := net.deadlineErr } with
        ⟨⟨m, _ | e⟩, conn1⟩
      · have hid : conn1.id = w.dials := by
          have := readUntil_id CARRIAGE_RETURN
            { id := w.dials, writeErr := net.writeErr, reads := net.reads, sent := [],
              deadlineErr := net.deadlineErr }
          rw [hw] at this
          exact this
        have hsent : conn1.sent = [] := by
          have := readUntil_sent CARRIAGE_RETURN
            { id := w.dials, writeErr := net.writeErr, reads := net.reads, sent := [],
              deadlineErr := net.deadlineErr }
          rw [hw] at this
          exact this
        obtain ⟨data, hdata⟩ := writeEvents_writeCommand conn1 command hsent
        have hid2 := writeCommand_id conn1 command
        refine ⟨data, ?_⟩
        rcases hx : writeCommand conn1 command with ⟨⟨resp, _ | e⟩, conn2⟩
        · rw [hx] at hdata hid2
          simp only at hdata hid2
          simp [hx, hdata, hid2, hid]
        · simp [hw, hx] at hok
      · simp [hw] at hok


theorem exchanges_append (a b : List Event) : exchanges (a ++ b) = exchanges a ++ exchanges b := by
  induction a with
  | nil => rfl
  | cons e a ih => cases e <;> simp [exchanges, ih]

theorem opened_append (a b : List Event) : opened (a ++ b) = opened a ++ opened b := by
  induction a with
  | nil => rfl
  | cons e a ih =>
    cases e with
    | dial address conn => cases conn <;> simp [opened, ih]
    | reset t => simp [opened, ih]
    | write c d => simp [opened, ih]
    | close c => simp [opened, ih]

theorem closed_append (a b : List Event) : closed (a ++ b) = closed a ++ closed b := by
  induction a with
  | nil => rfl
  | cons e a ih => cases e <;> simp [closed, ih]

theorem transient_all (address : String) (calls : List (Net × String)) (w : World)
    (hok : ∀ r ∈ (sendAll address true w calls).1, r.2 = none) :
    (sendAll address true w calls).2.dials = w.dials + calls.length ∧
      opened (sendAll address true w calls).2.trace =
        opened w.trace ++ List.range' w.dials calls.length ∧
      closed (sendAll address true w calls).2.trace =
        closed w.trace ++ List.range' w.dials calls.length ∧
      exchanges (sendAll address true w calls).2.trace =
        exchanges w.trace ++ List.range' w.dials calls.length := by
  induction calls generalizing w with
  | nil => simp [sendAll]
  | cons call calls ih =>
    obtain ⟨net, command⟩ := call
    simp only [sendAll, List.mem_cons, forall_eq_or_imp] at hok ⊢
    obtain ⟨hfirst, hrest⟩ := hok
    obtain ⟨data, hw⟩ := transient_ok w net address command hfirst
    have := ih _ hrest
    rw [hw] at this ⊢
    simp only [opened_append, closed_append, exchanges_append] at this
    obtain ⟨h1, h2, h3, h4⟩ := this
    refine ⟨?_, ?_, ?_, ?_⟩
    · rw [h1, List.length_cons]
      omega
    · rw [h2]
      simp [opened, List.range'_succ]
    · rw [h3]
      simp [closed, List.range'_succ]
    · rw [h4]
      simp [exchanges, List.range'_succ]

theorem pooled_rest (address : String) (calls : List (Net × String)) (w : World) (c : Nat)
    (hc : w.connMap address = some c)
    (hok : ∀ r ∈ (sendAll address false w calls).1, r.2 = none) :
    (sendAll address false w calls).2.dials = w.dials ∧
      opened (sendAll address false w calls).2.trace = opened w.trace ∧
      closed (sendAll address false w calls).2.trace = closed w.trace ∧
      exchanges (sendAll address false w calls).2.trace =
        exchanges w.trace ++ List.replicate calls.length c := by
  induction calls generalizing w with
  | nil => simp [sendAll]
  | cons call calls ih =>
    obtain ⟨net, command⟩ := call
    simp only [sendAll, List.mem_cons, forall_eq_or_imp] at hok ⊢
    obtain ⟨hfirst, hrest⟩ := hok
    obtain ⟨t, ht⟩ := pooled_reuse_timer w net address command c hc hfirst
    obtain ⟨data, hw⟩ := resetAndWrite_world w t ⟨c, net.writeErr, net.reads, [], net.deadlineErr⟩ command rfl
    rw [pooled_reuse w net address command c t hc ht] at hrest ⊢
    have := ih _ (by rw [hw]; exact hc) hrest
    rw [hw] at this ⊢
    simp only [opened_append, closed_append, exchanges_append] at this
    obtain ⟨h1, h2, h3, h4⟩ := this
    refine ⟨h1, ?_, ?_, ?_⟩
    · rw [h2]
      simp [opened]
    · rw [h3]
      simp [closed]
    · rw [h4]
      simp [exchanges, List.replicate_succ]

/-! ## The claims -/

set_option maxRecDepth 100000

/-- C1. Round trip of the index translation: for every integer `n ≥ -1` that
fits a Go `int`, `ToIndexOne` on the decimal string of `n` succeeds with some
string `s`, and `ToIndexZero` on `s` succeeds with exactly the decimal string
of `n`. -/
theorem C1_index_round_trip (intSize : Nat) (hsize : 0 < intSize) (n : Int)
    (hlo : -1 ≤ n) (hhi : n < (2 : Int) ^ (intSize - 1)) :
    ∃ s : String, ToIndexOne intSize (Itoa n) = .ok s ∧
      ToIndexZero intSize s = .ok (Itoa n) := by
  have hpos : (0 : Int) < (2 : Int) ^ (intSize - 1) := by positivity
  exact ⟨_, round_trip_int intSize hsize n (by omega) hhi⟩

/-- C1 at the index 41 and at the largest 64-bit `int`. -/
theorem C1_index_round_trip_witness :
    Itoa 41 = "41" ∧ ToIndexOne 64 "41" = .ok "42" ∧ ToIndexZero 64 "42" = .ok "41" ∧
      (∃ s : String, ToIndexOne 64 (Itoa 41) = .ok s ∧ ToIndexZero 64 s = .ok (Itoa 41)) ∧
      (∃ s : String, ToIndexOne 64 (Itoa 9223372036854775807) = .ok s ∧
        ToIndexZero 64 s = .ok (Itoa 9223372036854775807)) :=
  ⟨by decide, by decide, by decide,
    C1_index_round_trip 64 (by decide) 41 (by decide) (by decide),
    C1_index_round_trip 64 (by decide) 9223372036854775807 (by decide) (by decide)⟩

/-- C2, as stated, fails: `ToIndexOne` does not return an error for `"-1"`
(for a 64-bit and for a 32-bit `int`). -/
theorem C2_counterexample :
    ¬ ((∃ e, ToIndexOne 64 "-1" = .error e) ∧ (∃ e, ToIndexOne 64 "abc" = .error e)) ∧
      ¬ ((∃ e, ToIndexOne 32 "-1" = .error e) ∧ (∃ e, ToIndexOne 32 "abc" = .error e)) := by
  have h64 : ToIndexOne 64 "-1" = .ok "0" := by decide
  have h32 : ToIndexOne 32 "-1" = .ok "0" := by decide
  constructor
  · rintro ⟨⟨e, he⟩, _⟩
    rw [h64] at he
    cases he
  · rintro ⟨⟨e, he⟩, _⟩
    rw [h32] at he
    cases he

/-- C2, amended: `ToIndexOne` returns an error for `"abc"`; for `"-1"` it
returns `"0"` without an error, and `LessThanZero`, the test the handlers
make next to it, is true on `"-1"`. -/
theorem C2_rejection (intSize : Nat) (hsize : 0 < intSize) :
    ToIndexOne intSize "abc" = .error "strconv.Atoi: parsing \"abc\": invalid syntax" ∧
      ToIndexOne intSize "-1" = .ok "0" ∧ LessThanZero intSize "-1" = true := by
  have hpos : (0 : Int) < (2 : Int) ^ (intSize - 1) := by positivity
  have hitoa : Itoa (-1) = "-1" := by decide
  have hatoi : Atoi intSize "-1" = .ok (-1) := by
    rw [← hitoa]
    exact Atoi_Itoa intSize hsize (-1) (by omega) (by omega)
  have habc : Atoi intSize "abc" = .error .ErrSyntax := by
    have hl : "abc".toList = ['a', 'b', 'c'] := by decide
    have hd : digitVal 'a' = none := by decide
    simp [Atoi, hl, ParseUint, hd]
  refine ⟨?_, ?_, ?_⟩
  · simp only [ToIndexOne, habc]
    decide
  · have hw : wrapInt intSize (-1 + 1) = 0 := wrapInt_of_range intSize hsize _ (by omega) hpos
    rw [ToIndexOne, hatoi]
    simp only [hw]
    decide
  · simp [LessThanZero, hatoi]

/-- C2, amended, for a 64-bit `int`. -/
theorem C2_rejection_witness :
    0 < 64 ∧ ToIndexOne 64 "abc" = .error "strconv.Atoi: parsing \"abc\": invalid syntax" ∧
      ToIndexOne 64 "-1" = .ok "0" ∧ LessThanZero 64 "-1" = true :=
  ⟨by decide, C2_rejection 64 (by decide)⟩

/-- C3, as stated, fails at the largest value of the Go `int` type: the string
parses to `n` and `ToIndexOne` does not return the decimal string of `n + 1`
(for a 64-bit and for a 32-bit `int`). -/
theorem C3_counterexample :
    (Atoi 64 "9223372036854775807" = .ok 9223372036854775807 ∧
      ToIndexOne 64 "9223372036854775807" ≠ .ok (Itoa (9223372036854775807 + 1)) ∧
      ToIndexOne 64 "9223372036854775807" = .ok "-9223372036854775808") ∧
    (Atoi 32 "2147483647" = .ok 2147483647 ∧
      ToIndexOne 32 "2147483647" ≠ .ok (Itoa (2147483647 + 1)) ∧
      ToIndexOne 32 "2147483647" = .ok "-2147483648") := by
  decide

/-- C3, amended: for every string `s`, `ToIndexOne` fails exactly when `s`
does not parse as an integer (`strconv.Atoi`), and otherwise, with `n` the
parsed integer, it succeeds, and returns the decimal string of `n + 1` for
every `n` below the largest value of the Go `int` type. -/
theorem C3_plus_one (intSize : Nat) (hsize : 0 < intSize) (s : String) :
    ((∃ e, ToIndexOne intSize s = .error e) ↔ (∃ e, Atoi intSize s = .error e)) ∧
      ∀ n : Int, Atoi intSize s = .ok n →
        (∃ r, ToIndexOne intSize s = .ok r) ∧
        (n < (2 : Int) ^ (intSize - 1) - 1 → ToIndexOne intSize s = .ok (Itoa (n + 1))) := by
  constructor
  · cases h : Atoi intSize s with
    | error e => simp [ToIndexOne, h]
    | ok n => simp [ToIndexOne, h]
  · intro n hn
    have hr := Atoi_range intSize s n hn
    refine ⟨⟨Itoa (wrapInt intSize (n + 1)), by simp [ToIndexOne, hn]⟩, fun hlt => ?_⟩
    have hw : wrapInt intSize (n + 1) = n + 1 :=
      wrapInt_of_range intSize hsize _ (by omega) (by omega)
    simp [ToIndexOne, hn, hw]

/-- C3, amended, on the strings `"7"` and `"x7"` for a 64-bit `int`. -/
theorem C3_plus_one_witness :
    ToIndexOne 64 "7" = .ok "8" ∧ (∃ e, ToIndexOne 64 "x7" = .error e) ∧
      ToIndexOne 64 "7" = .ok (Itoa (7 + 1)) :=
  ⟨by decide,
    ((C3_plus_one 64 (by decide) "x7").1).2 ⟨.ErrSyntax, by decide⟩,
    ((C3_plus_one 64 (by decide) "7").2 7 (by decide)).2 (by decide)⟩

/-- C4. Index validation happens before any device call: in the handlers
`SwitchInput`, `GetInputByPort` and `GetActiveSignal`, given a welcome flag
that parses as a boolean where one is required, an index parameter that does
not parse as an integer or parses to a negative one makes the handler answer
400 with no device operation called; and when every index parameter parses to
a non-negative integer the handler does not answer 400. -/
theorem C4_validation_before_device (intSize : Nat) (vs : Device) (context : String → String) :
    ((∃ w, ParseBool (context "bool") = .ok w) →
      ((badIndex intSize (context "input") ∨ badIndex intSize (context "output")) →
        (handlers.SwitchInput intSize vs context).1.code = 400 ∧
          (handlers.SwitchInput intSize vs context).2 = []) ∧
      ((parsesNonNegative intSize (context "input") ∧
          parsesNonNegative intSize (context "output")) →
        (handlers.SwitchInput intSize vs context).1.code ≠ 400)) ∧
    ((∃ w, ParseBool (context "bool") = .ok w) →
      (badIndex intSize (context "port") →
        (handlers.GetInputByPort intSize vs context).1.code = 400 ∧
          (handlers.GetInputByPort intSize vs context).2 = []) ∧
      (parsesNonNegative intSize (context "port") →
        (handlers.GetInputByPort intSize vs context).1.code ≠ 400)) ∧
    ((badIndex intSize (context "port") →
        (handlers.GetActiveSignal intSize vs context).1.code = 400 ∧
          (handlers.GetActiveSignal intSize vs context).2 = []) ∧
      (parsesNonNegative intSize (context "port") →
        (handlers.GetActiveSignal intSize vs context).1.code ≠ 400)) := by
  refine ⟨?_, ?_, ?_, ?_⟩
  · rintro ⟨w, hw⟩
    constructor
    · intro hbad
      cases hin : ToIndexOne intSize (context "input") with
      | error e => simp [handlers.SwitchInput, hw, hin, StatusBadRequest]
      | ok i =>
        by_cases hneg : LessThanZero intSize (context "input") = true
        · simp [handlers.SwitchInput, hw, hin, hneg, StatusBadRequest]
        · have hout : badIndex intSize (context "output") := by
            rcases hbad with hbad | hbad
            · rcases validate_bad _ _ hbad with ⟨e, he⟩ | ⟨_, _, hlt⟩
              · rw [hin] at he
                cases he
              · exact absurd hlt hneg
            · exact hbad
          rcases validate_bad _ _ hout with ⟨e, he⟩ | ⟨o, ho, hlt⟩
          · simp [handlers.SwitchInput, hw, hin, hneg, he, StatusBadRequest]
          · simp [handlers.SwitchInput, hw, hin, hneg, ho, hlt, StatusBadRequest]
    · rintro ⟨hgi, hgo⟩
      obtain ⟨i, hi, hil⟩ := validate_good _ _ hgi
      obtain ⟨o, ho, hol⟩ := validate_good _ _ hgo
      simp only [handlers.SwitchInput, hw, hi, hil, ho, hol]
      rcases hdev : vs.SwitchInput (context "address") i o w with ⟨ret, _ | err⟩
      · cases hz : ToIndexZero intSize ret.Input <;>
          simp [hz, StatusInternalServerError, StatusOK]
      · simp [StatusInternalServerError]
  · rintro ⟨w, hw⟩
    constructor
    · intro hbad
      rcases validate_bad _ _ hbad with ⟨e, he⟩ | ⟨p, hp, hlt⟩
      · simp [handlers.GetInputByPort, hw, he, StatusBadRequest]
      · simp [handlers.GetInputByPort, hw, hp, hlt, StatusBadRequest]
    · intro hg
      obtain ⟨p, hp, hpl⟩ := validate_good _ _ hg
      simp only [handlers.GetInputByPort, hw, hp, hpl]
      rcases hdev : vs.GetCurrentInputByOutputPort (context "address") p w with ⟨ret, _ | err⟩
      · cases hz : ToIndexZero intSize ret.Input <;>
          simp [hz, StatusInternalServerError, StatusOK]
      · simp [StatusInternalServerError]
  · intro hbad
    rcases validate_bad _ _ hbad with ⟨e, he⟩ | ⟨p, hp, hlt⟩
    · simp [handlers.GetActiveSignal, he, StatusBadRequest]
    · simp [handlers.GetActiveSignal, hp, hlt, StatusBadRequest]
  · intro hg
    obtain ⟨p, hp, hpl⟩ := validate_good _ _ hg
    simp only [handlers.GetActiveSignal, hp, hpl]
    rcases hdev : vs.GetActiveSignalByPort (context "address") p true with ⟨ret, _ | err⟩
    · simp [StatusOK]
    · simp [StatusInternalServerError]

/-- C4 on requests to a device that reports the input 3: the input `-3` and
the ports `abc` and `1x` are answered 400 with no device call; the indices 2
and 3, and the port 0, are not answered 400. -/
theorem C4_validation_before_device_witness :
    ((handlers.SwitchInput 64 (workingDevice "3") (request "-3" "1" "" "" "true")).1.code = 400 ∧
      (handlers.SwitchInput 64 (workingDevice "3") (request "-3" "1" "" "" "true")).2 = []) ∧
    (handlers.SwitchInput 64 (workingDevice "3") (request "2" "3" "" "" "false")).1.code ≠ 400 ∧
    handlers.SwitchInput 64 (workingDevice "3") (request "2" "3" "" "" "false") =
      (⟨200, .input ⟨"2:3"⟩⟩, [VsCall.SwitchInput "10.0.0.1" "3" "4" false]) ∧
    ((handlers.GetInputByPort 64 (workingDevice "3") (request "" "" "abc" "" "true")).1.code = 400 ∧
      (handlers.GetInputByPort 64 (workingDevice "3") (request "" "" "abc" "" "true")).2 = []) ∧
    ((handlers.GetActiveSignal 64 (workingDevice "3") (request "" "" "1x" "" "")).1.code = 400 ∧
      (handlers.GetActiveSignal 64 (workingDevice "3") (request "" "" "1x" "" "")).2 = []) ∧
    (handlers.GetActiveSignal 64 (workingDevice "3") (request "" "" "0" "" "")).1.code ≠ 400 :=
  ⟨((C4_validation_before_device 64 (workingDevice "3")
        (request "-3" "1" "" "" "true")).1 ⟨true, by decide⟩).1
      (Or.inl (Or.inr ⟨-3, by decide, by decide⟩)),
    ((C4_validation_before_device 64 (workingDevice "3")
        (request "2" "3" "" "" "false")).1 ⟨false, by decide⟩).2
      ⟨⟨2, by decide, by decide⟩, ⟨3, by decide, by decide⟩⟩,
    by decide,
    ((C4_validation_before_device 64 (workingDevice "3")
        (request "" "" "abc" "" "true")).2.1 ⟨true, by decide⟩).1
      (Or.inl (fun n h => by
        have hs : Atoi 64 "abc" = .error .ErrSyntax := by decide
        rw [show request "" "" "abc" "" "true" "port" = "abc" by decide, hs] at h
        cases h)),
    (C4_validation_before_device 64 (workingDevice "3")
        (request "" "" "1x" "" "")).2.2.1
      (Or.inl (fun n h => by
        have hs : Atoi 64 "1x" = .error .ErrSyntax := by decide
        rw [show request "" "" "1x" "" "" "port" = "1x" by decide, hs] at h
        cases h)),
    (C4_validation_before_device 64 (workingDevice "3")
        (request "" "" "0" "" "")).2.2.2 ⟨0, by decide, by decide⟩⟩

/-- C5, as stated, fails for `SetFrontLock`: with the welcome flag `"maybe"`
and a lock flag that is no boolean either, the 400 answer is about the lock
flag and does not refer to the welcome parameter. -/
theorem C5_counterexample :
    handlers.SetFrontLock (workingDevice "3") (request "" "" "" "perhaps" "maybe") =
        (⟨400, .str "Error! front-button-lock must be set to true/false"⟩, []) ∧
      ¬ refersTo "welcome" "Error! front-button-lock must be set to true/false" := by
  decide

/-- C5, amended. With the welcome flag (path parameter `bool`) equal to
`"maybe"`, for every choice of the other request parameters: the handler
`SwitchInput` answers 400 with a message that refers to the welcome parameter
and calls no device operation; the handler `SetFrontLock` answers 400 and
calls no device operation, and its message refers to the welcome parameter
whenever the lock flag (path parameter `bool2`) parses as a boolean. -/
theorem C5_malformed_welcome (intSize : Nat) (vs : Device) (context : String → String)
    (hflag : context "bool" = "maybe") :
    (handlers.SwitchInput intSize vs context =
        (⟨400, .str "Error! welcome must be a true/false value"⟩, []) ∧
      refersTo "welcome" "Error! welcome must be a true/false value") ∧
    (handlers.SetFrontLock vs context).1.code = 400 ∧
    (handlers.SetFrontLock vs context).2 = [] ∧
    ((∃ state, ParseBool (context "bool2") = .ok state) →
      handlers.SetFrontLock vs context =
        (⟨400, .str "Error! welcome must be a true/false value"⟩, [])) := by
  have hparse : ParseBool "maybe" = .error "strconv.ParseBool: parsing \"maybe\": invalid syntax" := by
    decide
  refine ⟨⟨?_, by decide⟩, ?_, ?_, ?_⟩
  · simp [handlers.SwitchInput, hflag, hparse, StatusBadRequest]
  · cases hlock : ParseBool (context "bool2") <;>
      simp [handlers.SetFrontLock, hflag, hparse, hlock, StatusBadRequest]
  · cases hlock : ParseBool (context "bool2") <;>
      simp [handlers.SetFrontLock, hflag, hparse, hlock]
  · rintro ⟨state, hstate⟩
    simp [handlers.SetFrontLock, hflag, hparse, hstate, StatusBadRequest]

/-- C5, amended, on a request with valid indices and lock flag. -/
theorem C5_malformed_welcome_witness :
    request "2" "3" "" "true" "maybe" "bool" = "maybe" ∧
    handlers.SwitchInput 64 (workingDevice "3") (request "2" "3" "" "true" "maybe") =
      (⟨400, .str "Error! welcome must be a true/false value"⟩, []) ∧
    handlers.SetFrontLock (workingDevice "3") (request "2" "3" "" "true" "maybe") =
      (⟨400, .str "Error! welcome must be a true/false value"⟩, []) :=
  ⟨by decide,
    (C5_malformed_welcome 64 (workingDevice "3") (request "2" "3" "" "true" "maybe")
      (by decide)).1.1,
    (C5_malformed_welcome 64 (workingDevice "3") (request "2" "3" "" "true" "maybe")
      (by decide)).2.2.2 ⟨true, by decide⟩⟩

/-- C6 fails in `GetActiveSignal`: with a valid port and the device operation
failing with `connection refused`, the answer is 500 with the `nil` error as
its body, not the message; the three other handlers answer 500 with the
message as body. -/
theorem C6_active_signal_drops_message :
    handlers.GetActiveSignal 64 (failingDevice "connection refused")
        (request "" "" "0" "" "") =
      (⟨500, .err none⟩, [VsCall.GetActiveSignalByPort "10.0.0.1" "1" true]) ∧
    (handlers.SwitchInput 64 (failingDevice "connection refused")
        (request "2" "3" "" "" "true")).1 = ⟨500, .str "connection refused"⟩ ∧
    (handlers.GetInputByPort 64 (failingDevice "connection refused")
        (request "" "" "0" "" "true")).1 = ⟨500, .str "connection refused"⟩ ∧
    (handlers.SetFrontLock (failingDevice "connection refused")
        (request "" "" "" "true" "true")).1 = ⟨500, .str "connection refused"⟩ := by
  decide

/-- C8 fails: the device sends `ABC` and then `X\n`; `readUntil` returns
`ABCX\nC`, where the last `C` is a byte of the first chunk that was still in
the buffer after the second read. A response that arrives in one chunk is
returned as sent. -/
theorem C8_stale_bytes_returned :
    (readUntil LINE_FEED ⟨0, none, [.data [65, 66, 67], .data [88, 10]], [], ioTimeout⟩).1 =
        ([65, 66, 67, 88, 10, 67], none) ∧
      removeNil ([65, 66, 67] ++ [88, 10]) = [65, 66, 67, 88, 10] ∧
      (readUntil LINE_FEED ⟨0, none, [.data [65, 66, 67, 88, 10]], [], ioTimeout⟩).1 =
        ([65, 66, 67, 88, 10], none) := by
  decide

/-- C10 fails: on a connection whose `Write` fails with `broken pipe` and whose
next read delivers `OK\n`, `writeCommand` returns `OK\n` with a `nil` error,
and so does `SendCommand` in both modes. -/
theorem C10_write_failure_swallowed :
    (writeCommand ⟨0, some "broken pipe", [.data [79, 75, 10]], [], ioTimeout⟩ "Route 3 4").1 =
        ([79, 75, 10], none) ∧
      (writeCommand ⟨0, some "broken pipe", [.data [79, 75, 10]], [], ioTimeout⟩ "Route 3 4").2.sent =
        ["Route 3 4\r\n"] ∧
      (SendCommand World.start (brokenWrite [.data [79, 75, 10]]) "10.0.0.1" "Route 3 4" false).1 =
        ([79, 75, 10], none) ∧
      (SendCommand World.start (brokenWrite [.data [13], .data [79, 75, 10]]) "10.0.0.1"
        "Route 3 4" true).1 = ([79, 75, 10], none) := by
  decide

/-- C9. Mode isolation, where every call succeeds and no idle timer fires:
starting from a registry with no entry for the address, `N ≥ 1` sequential
transient calls make exactly `N` dials, each exchange runs on the connection
its call opened, and each of these connections is closed; `N` sequential
pooled calls make exactly one dial, all `N` exchanges run on that one
connection, and it is not closed. -/
theorem C9_mode_isolation (address : String) (w : World) (calls : List (Net × String))
    (hentry : w.connMap address = none) (hN : 1 ≤ calls.length) :
    ((∀ r ∈ (sendAll address true w calls).1, r.2 = none) →
      (sendAll address true w calls).2.dials = w.dials + calls.length ∧
      opened (sendAll address true w calls).2.trace =
        opened w.trace ++ List.range' w.dials calls.length ∧
      closed (sendAll address true w calls).2.trace =
        closed w.trace ++ List.range' w.dials calls.length ∧
      exchanges (sendAll address true w calls).2.trace =
        exchanges w.trace ++ List.range' w.dials calls.length) ∧
    ((∀ r ∈ (sendAll address false w calls).1, r.2 = none) →
      (sendAll address false w calls).2.dials = w.dials + 1 ∧
      opened (sendAll address false w calls).2.trace = opened w.trace ++ [w.dials] ∧
      closed (sendAll address false w calls).2.trace = closed w.trace ∧
      exchanges (sendAll address false w calls).2.trace =
        exchanges w.trace ++ List.replicate calls.length w.dials) := by
  refine ⟨transient_all address calls w, ?_⟩
  intro hok
  cases calls with
  | nil => simp at hN
  | cons call calls =>
    obtain ⟨net, command⟩ := call
    simp only [sendAll, List.mem_cons, forall_eq_or_imp] at hok ⊢
    obtain ⟨hfirst, hrest⟩ := hok
    obtain ⟨hr, hd⟩ := pooled_fresh_dialled w net address command hentry hfirst
    rw [pooled_fresh w net address command hentry hr hd] at hrest ⊢
    obtain ⟨data, hw⟩ := resetAndWrite_world
      { w with
        connMap := Store w.connMap address w.dials
        timerMap := Store w.timerMap address w.timers
        dials := w.dials + 1
        timers := w.timers + 1
        watchers := w.watchers ++ [(w.timers, address, w.dials)]
        trace := w.trace ++ [Event.dial address (some w.dials)] }
      w.timers ⟨w.dials, net.writeErr, net.reads, [], net.deadlineErr⟩ command rfl
    have := pooled_rest address calls _ w.dials (by rw [hw]; simp [Store]) hrest
    rw [hw] at this ⊢
    simp only [opened_append, closed_append, exchanges_append] at this
    obtain ⟨h1, h2, h3, h4⟩ := this
    refine ⟨h1, ?_, ?_, ?_⟩
    · rw [h2]
      simp [opened]
    · rw [h3]
      simp [closed]
    · rw [h4]
      simp [exchanges, List.replicate_succ]

/-- C9 on three calls from the start state: three transient calls dial three
times and close the connections 0, 1, 2; three pooled calls dial once and run
their exchanges on the connection 0. -/
theorem C9_mode_isolation_witness :
    ((sendAll "10.0.0.1" true World.start threeTransient).2.dials = 3 ∧
      opened (sendAll "10.0.0.1" true World.start threeTransient).2.trace = [0, 1, 2] ∧
      closed (sendAll "10.0.0.1" true World.start threeTransient).2.trace = [0, 1, 2] ∧
      exchanges (sendAll "10.0.0.1" true World.start threeTransient).2.trace = [0, 1, 2]) ∧
    ((sendAll "10.0.0.1" false World.start threePooled).2.dials = 1 ∧
      opened (sendAll "10.0.0.1" false World.start threePooled).2.trace = [0] ∧
      closed (sendAll "10.0.0.1" false World.start threePooled).2.trace = [] ∧
      exchanges (sendAll "10.0.0.1" false World.start threePooled).2.trace = [0, 0, 0]) :=
  ⟨(C9_mode_isolation "10.0.0.1" World.start threeTransient rfl (by decide)).1 (by decide),
    (C9_mode_isolation "10.0.0.1" World.start threePooled rfl (by decide)).2 (by decide)⟩

/-- C7, as stated, fails: a pooled call whose read fails with `connection
reset by peer` returns an error, and on return `connMap` still holds the
connection 0 for the address; the next pooled call dials nothing and runs its
exchange on the connection 0 again. -/
theorem C7_counterexample :
    (SendCommand World.start (healthy [.fail "connection reset by peer"])
        "10.0.0.1" "Route 3 4" false).1 =
      ([], some "Error reading response: connection reset by peer") ∧
    (SendCommand World.start (healthy [.fail "connection reset by peer"])
        "10.0.0.1" "Route 3 4" false).2.connMap "10.0.0.1" = some 0 ∧
    (SendCommand
        (SendCommand World.start (healthy [.fail "connection reset by peer"])
          "10.0.0.1" "Route 3 4" false).2
        (healthy [.data [79, 75, 10]]) "10.0.0.1" "Route 3 4" false).2.dials = 1 ∧
    exchanges (SendCommand
        (SendCommand World.start (healthy [.fail "connection reset by peer"])
          "10.0.0.1" "Route 3 4" false).2
        (healthy [.data [79, 75, 10]]) "10.0.0.1" "Route 3 4" false).2.trace = [0, 0] := by
  decide

/-- C7, amended. A failed pooled exchange leaves the pool entry in place: when
`SendCommand` is called in pooled mode, `c` is the pooled connection of the
call (the one `connMap` holds for the address, or else the one a successful
dial opens) and the write/read exchange on it fails with the error `e`, then
`SendCommand` returns the error `e` and, on return, `connMap` holds `c` for
the address; provided no idle timer fires in between (the second call starts
in the state the first one returned), the next pooled call for the address
dials nothing and runs its exchange on `c`. -/
theorem C7_failed_exchange_keeps_entry (w : World) (net : Net) (address command : String)
    (c : Nat) (e : String)
    (hconn : (w.connMap address = some c ∧ w.timerMap address ≠ none) ∨
      (w.connMap address = none ∧ net.resolveErr = none ∧ net.dialErr = none ∧ c = w.dials))
    (hfail : (writeCommand ⟨c, net.writeErr, net.reads, [], net.deadlineErr⟩ command).1.2 = some e) :
    (SendCommand w net address command false).1 = ([], some e) ∧
    (SendCommand w net address command false).2.connMap address = some c ∧
    ∀ (net2 : Net) (command2 : String),
      (SendCommand (SendCommand w net address command false).2 net2 address command2 false).2.dials
          = (SendCommand w net address command false).2.dials ∧
        exchanges
          (SendCommand (SendCommand w net address command false).2 net2 address command2
            false).2.trace
          = exchanges (SendCommand w net address command false).2.trace ++ [c] := by
  have hres : ∀ (w0 : World) (t : Nat),
      (resetAndWrite w0 t ⟨c, net.writeErr, net.reads, [], net.deadlineErr⟩ command).1 = ([], some e) := by
    intro w0 t
    obtain ⟨h1, h2⟩ := resetAndWrite_result w0 t ⟨c, net.writeErr, net.reads, [], net.deadlineErr⟩ command
    rw [hfail] at h1
    exact Prod.ext (h2 (by rw [hfail]; simp)) h1
  have hnext : ∀ (w1 : World) (t : Nat), w1.connMap address = some c →
      w1.timerMap address = some t → ∀ (net2 : Net) (command2 : String),
        (SendCommand w1 net2 address command2 false).2.dials = w1.dials ∧
          exchanges (SendCommand w1 net2 address command2 false).2.trace
            = exchanges w1.trace ++ [c] := by
    intro w1 t hc ht net2 command2
    obtain ⟨data, hw⟩ :=
      resetAndWrite_world w1 t ⟨c, net2.writeErr, net2.reads, [], net2.deadlineErr⟩ command2 rfl
    rw [pooled_reuse w1 net2 address command2 c t hc ht, hw]
    simp [exchanges_append, exchanges]
  rcases hconn with ⟨hc, ht⟩ | ⟨hc, hr, hd, rfl⟩
  · obtain ⟨t, ht⟩ := Option.ne_none_iff_exists'.mp ht
    obtain ⟨data, hw⟩ := resetAndWrite_world w t ⟨c, net.writeErr, net.reads, [], net.deadlineErr⟩ command rfl
    rw [pooled_reuse w net address command c t hc ht]
    refine ⟨hres w t, by rw [hw]; exact hc, ?_⟩
    exact hnext _ t (by rw [hw]; exact hc) (by rw [hw]; exact ht)
  · obtain ⟨data, hw⟩ := resetAndWrite_world
      { w with
        connMap := Store w.connMap address w.dials
        timerMap := Store w.timerMap address w.timers
        dials := w.dials + 1
        timers := w.timers + 1
        watchers := w.watchers ++ [(w.timers, address, w.dials)]
        trace := w.trace ++ [Event.dial address (some w.dials)] }
      w.timers ⟨w.dials, net.writeErr, net.reads, [], net.deadlineErr⟩ command rfl
    rw [pooled_fresh w net address command hc hr hd]
    refine ⟨hres _ _, by rw [hw]; simp [Store], ?_⟩
    exact hnext _ w.timers (by rw [hw]; simp [Store]) (by rw [hw]; simp [Store])

/-- C7, amended, on a first pooled call whose read fails with `connection
reset by peer`, followed by a second pooled call. -/
theorem C7_failed_exchange_keeps_entry_witness :
    (writeCommand ⟨0, none, [.fail "connection reset by peer"], [], ioTimeout⟩ "Route 3 4").1.2 =
      some "Error reading response: connection reset by peer" ∧
    (SendCommand World.start (healthy [.fail "connection reset by peer"])
        "10.0.0.1" "Route 3 4" false).1 =
      ([], some "Error reading response: connection reset by peer") ∧
    (SendCommand World.start (healthy [.fail "connection reset by peer"])
        "10.0.0.1" "Route 3 4" false).2.connMap "10.0.0.1" = some 0 ∧
    (SendCommand
        (SendCommand World.start (healthy [.fail "connection reset by peer"])
          "10.0.0.1" "Route 3 4" false).2
        (healthy [.data [79, 75, 10]]) "10.0.0.1" "Lock 1" false).2.dials =
      (SendCommand World.start (healthy [.fail "connection reset by peer"])
        "10.0.0.1" "Route 3 4" false).2.dials :=
  ⟨by decide,
    (C7_failed_exchange_keeps_entry World.start (healthy [.fail "connection reset by peer"])
      "10.0.0.1" "Route 3 4" 0 "Error reading response: connection reset by peer"
      (Or.inr ⟨rfl, rfl, rfl, rfl⟩) (by decide)).1,
    (C7_failed_exchange_keeps_entry World.start (healthy [.fail "connection reset by peer"])
      "10.0.0.1" "Route 3 4" 0 "Error reading response: connection reset by peer"
      (Or.inr ⟨rfl, rfl, rfl, rfl⟩) (by decide)).2.1,
    ((C7_failed_exchange_keeps_entry World.start (healthy [.fail "connection reset by peer"])
      "10.0.0.1" "Route 3 4" 0 "Error reading response: connection reset by peer"
      (Or.inr ⟨rfl, rfl, rfl, rfl⟩) (by decide)).2.2
      (healthy [.data [79, 75, 10]]) "Lock 1").1⟩

end Kramer
